import Mathlib

/-!
Verification of the thumbnail generation and backfill pipeline
(cdk/lambda_functions/thumbnail/generate_thumbnails.py and
cdk/lambda_functions/thumbnail/backfill_thumbnails.py).

Keys are modelled as lists of characters.  Python string operations
(rsplit with maxsplit 1, os.path.splitext, str.split, substring test,
str.lower) are embedded as executable Lean functions below.
-/

namespace Thumb

/-- Convert a string literal to the list-of-characters key representation. -/
def chars (s : String) : List Char := s.toList

/-- Python substring test (pat in s): true iff pat occurs contiguously in s.
    The empty pattern is contained in every string, as in Python. -/
def containsSub (pat : List Char) : List Char → Bool
  | [] => pat.isPrefixOf []
  | c :: rest => pat.isPrefixOf (c :: rest) || containsSub pat rest

/-- Python s.rsplit(sep, 1): split at the LAST occurrence of sep.
    Returns none when sep does not occur (Python would return the
    one-element list [s]); otherwise some (before, after). -/
def rsplitOnce (sep : Char) : List Char → Option (List Char × List Char)
  | [] => none
  | c :: rest =>
    match rsplitOnce sep rest with
    | some (b, f) => some (c :: b, f)
    | none => if c = sep then some ([], rest) else none

/-- os.path.splitext restricted to a path component without a slash:
    split at the last dot, unless every character before that dot is
    itself a dot (CPython keeps leading dots of a basename attached). -/
def splitextFile (f : List Char) : List Char × List Char :=
  match rsplitOnce '.' f with
  | none => (f, [])
  | some (n, e) => if n.all (· = '.') then (f, []) else (n, '.' :: e)

/-- os.path.splitext on a full key: the extension is taken from the part
    after the last slash (dots before the last slash never count). -/
def splitext (p : List Char) : List Char × List Char :=
  match rsplitOnce '/' p with
  | none => splitextFile p
  | some (b, f) =>
    let r := splitextFile f
    (b ++ '/' :: r.1, r.2)

/-- ASCII lower-casing of one character (model of str.lower on key data). -/
def lowerChar (c : Char) : Char :=
  if 'A' ≤ c ∧ c ≤ 'Z' then Char.ofNat (c.toNat + 32) else c

/-- ASCII lower-casing of a character list. -/
def lowerList (s : List Char) : List Char := s.map lowerChar

/-- SUPPORTED_FORMATS = SUPPORTED_EXTENSIONS: the supported input extensions. -/
def SUPPORTED_FORMATS : List (List Char) :=
  [chars ".jpg", chars ".jpeg", chars ".png", chars ".webp"]

/-- THUMBNAIL_MARKER, the reserved derivative-path marker. -/
def THUMBNAIL_MARKER : List Char := chars "/thumb-"

/-- THUMBNAIL_CONFIGS: (width, height, subdirectory name), exactly four. -/
def THUMBNAIL_CONFIGS : List (Nat × Nat × List Char) :=
  [(64, 64, chars "thumb-64"), (200, 150, chars "thumb-200"),
   (300, 300, chars "thumb-300"), (400, 300, chars "thumb-400")]

/-- Thumbnail key construction from create_thumbnail:
    base_path/subdir_name/filename_without_ext.webp . -/
def mkThumbKey (basePath subdir fwe : List Char) : List Char :=
  basePath ++ '/' :: subdir ++ '/' :: fwe ++ chars ".webp"

/-- deriveDerivativeKey: the pure key derivation performed by
    generate_thumbnails together with create_thumbnail: rsplit the original
    key at the last slash, drop the extension of the trailing filename, and
    assemble base_path/variant/name.webp .  When the key has no slash the
    source would raise an IndexError; that case is modelled by the empty
    key and is unreachable after key-structure validation. -/
def deriveDerivativeKey (originalKey variantName : List Char) : List Char :=
  match rsplitOnce '/' originalKey with
  | some (basePath, filename) => mkThumbKey basePath variantName (splitextFile filename).1
  | none => []

example : rsplitOnce '/' (chars "a/b/c") = some (chars "a/b", chars "c") := by decide
example : splitext (chars "users/1/p/2/x.JPG") = (chars "users/1/p/2/x", chars ".JPG") := by
  decide
example : splitextFile (chars ".jpg") = (chars ".jpg", []) := by decide
example : lowerList (chars ".JpG") = chars ".jpg" := by decide
example : containsSub THUMBNAIL_MARKER (chars "u/1/thumb-64/x.webp") = true := by decide
example : deriveDerivativeKey (chars "owners/42/plant/7/abc-123.jpg") (chars "thumb-64")
    = chars "owners/42/plant/7/thumb-64/abc-123.webp" := by decide

/-! ## Event processor (generate_thumbnails.py) -/

/-- Outcome of an s3 get_object call for a key: the byte length of the
    object, or a ClientError. -/
inductive GetOutcome where
  | ok (sizeBytes : Nat)
  | err
deriving DecidableEq

/-- Outcome of an s3 head_object call: success, a 404 ClientError, or any
    other ClientError (access denied, throttling, ...). -/
inductive HeadOutcome where
  | ok
  | notFound
  | otherError
deriving DecidableEq

/-- One observable call against the backing store (or the remote worker). -/
inductive S3Op where
  | listReq
  | headReq (key : List Char)
  | getReq (key : List Char)
  | putReq (key : List Char)
deriving DecidableEq

/-- Abstract environment: the behaviour of the backing store and of the
    image pipeline on each key, fixed for one run.
    pages models paginated list_objects_v2 results under the users/ prefix,
    getObj the get_object outcome, decodeFails whether PIL fails to decode
    the fetched bytes, failDescr whether rendering or uploading the
    descriptor with that subdirectory name raises, and headOut the
    head_object outcome per probed key. -/
structure Store where
  pages : List (List (List Char))
  getObj : List Char → GetOutcome
  decodeFails : List Char → Bool
  failDescr : List Char → Bool
  headOut : List Char → HeadOutcome

/-- Result of process_s3_record: a skipped dict with its reason string, a
    success dict carrying the generated thumbnail keys, or a raised
    exception propagating out of the function. -/
inductive ProcResult where
  | skipped (reason : List Char)
  | success (thumbs : List (List Char))
  | raised
deriving DecidableEq

/-- generate_thumbnails: best-effort loop over THUMBNAIL_CONFIGS.  Each
    create_thumbnail call either raises (failDescr, caught and logged) or
    uploads the derivative and returns its key.  Returns the keys actually
    written together with the store writes issued. -/
def generate_thumbnails (st : Store) (originalKey : List Char) :
    List (List Char) × List S3Op :=
  match rsplitOnce '/' originalKey with
  | none => ([], [])
  | some (basePath, filename) =>
    let fwe := (splitextFile filename).1
    THUMBNAIL_CONFIGS.foldl
      (fun acc cfg =>
        if st.failDescr cfg.2.2 then acc
        else
          let tk := mkThumbKey basePath cfg.2.2 fwe
          (acc.1 ++ [tk], acc.2 ++ [S3Op.putReq tk]))
      ([], [])

/-- process_s3_record on an (already URL-decoded) object key: the guard
    and validation chain, the fetch, the size check, and thumbnail
    generation, together with the trace of store calls it performs. -/
def process_s3_record (st : Store) (key : List Char) : ProcResult × List S3Op :=
  if containsSub THUMBNAIL_MARKER key then
    (.skipped (chars "Already a thumbnail"), [])
  else if (lowerList (splitext key).2) ∉ SUPPORTED_FORMATS then
    (.skipped (chars "Unsupported format: " ++ lowerList (splitext key).2), [])
  else if (key.splitOn '/').length < 5 ∨ (key.splitOn '/').head? ≠ some (chars "users") then
    (.skipped (chars "Invalid key structure"), [])
  else
    match st.getObj key with
    | .err => (.raised, [.getReq key])
    | .ok size =>
      if 20 * 1024 * 1024 < size then
        (.skipped (chars "Image too large"), [.getReq key])
      else if st.decodeFails key then
        (.raised, [.getReq key])
      else
        let g := generate_thumbnails st key
        (.success g.1, .getReq key :: g.2)

/-- A store in which every call succeeds, no descriptor fails and no
    thumbnail exists yet. -/
def stAllOk : Store where
  pages := []
  getObj := fun _ => .ok 1000
  decodeFails := fun _ => false
  failDescr := fun _ => false
  headOut := fun _ => .notFound

example : (process_s3_record stAllOk (chars "users/1/plant/2/thumb-64/a.webp")).1
    = .skipped (chars "Already a thumbnail") := by decide
example : (process_s3_record stAllOk (chars "users/1/plant/2/a.jpg")).1
    = .success [chars "users/1/plant/2/thumb-64/a.webp",
                chars "users/1/plant/2/thumb-200/a.webp",
                chars "users/1/plant/2/thumb-300/a.webp",
                chars "users/1/plant/2/thumb-400/a.webp"] := by decide
example : (process_s3_record stAllOk (chars "notusers/x.jpg")).1
    = .skipped (chars "Invalid key structure") := by decide

/-! ## Reconciliation scanner (backfill_thumbnails.py) -/

/-- has_thumbnails: build the canonical thumb-64 derivative key and probe it
    with head_object.  A 404 means no thumbnails; any other ClientError is
    logged and also treated as no thumbnails.  Keys without a slash return
    False without probing.  Returns the probe calls issued. -/
def has_thumbnails (st : Store) (originalKey : List Char) : Bool × List S3Op :=
  match rsplitOnce '/' originalKey with
  | none => (false, [])
  | some (basePath, filename) =>
    let tk := mkThumbKey basePath (chars "thumb-64") (splitextFile filename).1
    match st.headOut tk with
    | .ok => (true, [.headReq tk])
    | .notFound => (false, [.headReq tk])
    | .otherError => (false, [.headReq tk])

/-- Python truthiness test `max_images and len(acc) >= max_images`:
    None and 0 are falsy, so they never activate the cap. -/
def capReached (maxImages : Option Nat) (n : Nat) : Bool :=
  match maxImages with
  | none => false
  | some m => if m = 0 then false else decide (m ≤ n)

/-- An object key is a backfill candidate: not a derivative, supported
    extension, and no thumb-64 derivative found by the probe. -/
def eligible (st : Store) (k : List Char) : Bool :=
  !containsSub THUMBNAIL_MARKER k &&
    decide (lowerList (splitext k).2 ∈ SUPPORTED_FORMATS) &&
    !(has_thumbnails st k).1

/-- Inner loop of find_images_needing_thumbnails over one listed page:
    returns the accumulated candidates, the probe calls issued, and whether
    the max_images early return fired. -/
def scanPage (st : Store) (maxImages : Option Nat) :
    List (List Char) → List (List Char) → List (List Char) × List S3Op × Bool
  | [], acc => (acc, [], false)
  | k :: ks, acc =>
    if containsSub THUMBNAIL_MARKER k then scanPage st maxImages ks acc
    else if lowerList (splitext k).2 ∉ SUPPORTED_FORMATS then scanPage st maxImages ks acc
    else
      let h := has_thumbnails st k
      if h.1 then
        let r := scanPage st maxImages ks acc
        (r.1, h.2 ++ r.2.1, r.2.2)
      else
        let acc' := acc ++ [k]
        if capReached maxImages acc'.length then (acc', h.2, true)
        else
          let r := scanPage st maxImages ks acc'
          (r.1, h.2 ++ r.2.1, r.2.2)

/-- Outer pagination loop of find_images_needing_thumbnails: one list call
    per page, stopping as soon as a page reports the cap was reached. -/
def scanGo (st : Store) (maxImages : Option Nat) :
    List (List (List Char)) → List (List Char) → List (List Char) × List S3Op
  | [], acc => (acc, [])
  | pg :: rest, acc =>
    let r := scanPage st maxImages pg acc
    if r.2.2 then (r.1, S3Op.listReq :: r.2.1)
    else
      let g := scanGo st maxImages rest r.1
      (g.1, S3Op.listReq :: (r.2.1 ++ g.2))

/-- find_images_needing_thumbnails: paginated scan under the users/ prefix
    returning the candidate keys and the store calls issued. -/
def find_images_needing_thumbnails (st : Store) (maxImages : Option Nat) :
    List (List Char) × List S3Op :=
  scanGo st maxImages st.pages []

/-! ## Backfill scheduler statistics (backfill_thumbnails.py) -/

/-- The fields of a processing-result dict inspected by the batch loop:
    the success flag and the skipped flag (absent means false). -/
structure Result where
  success : Bool
  skipped : Bool
deriving DecidableEq

/-- What generator_func does on one item: return a result dict or raise. -/
inductive ItemOutcome where
  | res (r : Result)
  | exn
deriving DecidableEq

/-- Which statistics counter one item increments. -/
inductive Counter where
  | succ
  | skip
  | fail
deriving DecidableEq

/-- process_single_image: call the generator and catch every exception,
    turning it into a success False dict. -/
def process_single_image : ItemOutcome → Result
  | .res r => r
  | .exn => ⟨false, false⟩

/-- The counter selection in the as_completed loop: success and skipped
    increments skipped, success alone increments successful, everything
    else increments failed. -/
def classifyResult (r : Result) : Counter :=
  if r.success then (if r.skipped then .skip else .succ) else .fail

/-- Per-item counter through process_single_image. -/
def classifyOutcome (o : ItemOutcome) : Counter :=
  classifyResult (process_single_image o)

/-- Aggregated run statistics. -/
structure Stats where
  total : Nat
  successful : Nat
  skipped : Nat
  failed : Nat
deriving DecidableEq

/-- The batch slices image_keys[i : i + bs] taken by the batch loop
    (fuelled recursion; the fuel is the list length at the call site). -/
def chunksGo {α : Type _} (bs : Nat) : Nat → List α → List (List α)
  | _, [] => []
  | 0, l => [l]
  | fuel + 1, l => l.take bs :: chunksGo bs fuel (l.drop bs)

/-- All batches of size bs, in order. -/
def chunks {α : Type _} (bs : Nat) (l : List α) : List (List α) :=
  chunksGo bs l.length l

/-- process_images_in_batches: slice the items into batches, run each batch
    on a worker pool and fold each future result into the counters in
    completion order.  completionOrder models the order in which
    as_completed yields the futures of one batch; outcome models what the
    generator does on each item. -/
def process_images_in_batches {α : Type _} (outcome : α → ItemOutcome)
    (completionOrder : List α → List α) (items : List α) (bs : Nat) : Stats :=
  let order := ((chunks bs items).map completionOrder).flatten
  let cs := order.map (fun a => classifyOutcome (outcome a))
  { total := items.length
    successful := cs.countP (fun x => decide (x = Counter.succ))
    skipped := cs.countP (fun x => decide (x = Counter.skip))
    failed := cs.countP (fun x => decide (x = Counter.fail)) }

/-- The local processing path generate_thumbnails_for_key: run
    process_s3_record on a synthetic one-record event and hand its dict
    (or exception) to the batch loop. -/
def localOutcome (st : Store) (k : List Char) : ItemOutcome :=
  match (process_s3_record st k).1 with
  | .skipped _ => .res ⟨true, true⟩
  | .success _ => .res ⟨true, false⟩
  | .raised => .exn

/-- Whether the per-record result dict built by the thumbnail lambda
    handler carries success True (skips do; only raised records do not). -/
def recordSuccessFlag (st : Store) (k : List Char) : Bool :=
  match (process_s3_record st k).1 with
  | .raised => false
  | _ => true

/-- lambda_handler of generate_thumbnails.py on a one-record event:
    per-record exceptions are caught, and the handler replies with
    statusCode 200 and the count of successful records — even when the
    record was skipped. -/
def thumb_lambda_handler (st : Store) (keys : List (List Char)) : Nat × Nat :=
  (200, (keys.filter (recordSuccessFlag st)).length)

/-- invoke_thumbnail_lambda: the remote-delegation fallback.  On a
    ClientError from invoke it returns a success False dict; otherwise a
    dict whose success flag is statusCode == 200.  Neither dict carries a
    skipped field. -/
def invoke_thumbnail_lambda (st : Store) (invokeErr : Bool) (k : List Char) : Result :=
  if invokeErr then ⟨false, false⟩
  else ⟨(thumb_lambda_handler st [k]).1 == 200, false⟩

/-- Result of backfill_thumbnails: the dry-run report or run statistics. -/
inductive BackfillOut where
  | dry (totalImages : Nat) (sampleImages : List (List Char))
  | ran (stats : Stats)
deriving DecidableEq

/-- backfill_thumbnails: scan for candidates; in dry-run mode return the
    count and the first 20 candidates without processing anything,
    otherwise process the candidates in batches (local path), collecting
    every store call made on the way. -/
def backfill_thumbnails (st : Store) (dryRun : Bool) (bs : Nat)
    (maxImages : Option Nat)
    (completionOrder : List (List Char) → List (List Char)) :
    BackfillOut × List S3Op :=
  let scan := find_images_needing_thumbnails st maxImages
  let imgs := scan.1
  if dryRun then (.dry imgs.length (imgs.take 20), scan.2)
  else
    (.ran (process_images_in_batches (localOutcome st) completionOrder imgs bs),
     scan.2 ++ (imgs.map (fun k => (process_s3_record st k).2)).flatten)

/-- A store like stAllOk in which rendering or uploading the thumb-200
    descriptor raises. -/
def stFail200 : Store :=
  { stAllOk with failDescr := fun s => s == chars "thumb-200" }

/-- A store listing one original that has no thumbnails yet. -/
def scanStore : Store :=
  { stAllOk with pages := [[chars "users/1/plant/2/a.jpg"]] }

/-- A store listing one original whose thumbnail existence probe fails
    with a non-404 ClientError. -/
def errStore : Store :=
  { stAllOk with
      pages := [[chars "users/1/plant/2/a.jpg"]]
      headOut := fun _ => .otherError }

/-- The backfill scenario of the spec: 25 items of which exactly one
    raises during processing. -/
def out25 : Nat → ItemOutcome :=
  fun i => if i = 13 then .exn else .res ⟨true, false⟩

/-! ## Binary64 model of the scale arithmetic in create_thumbnail

create_thumbnail computes scale = max(target_width / img_width,
target_height / img_height) and then int(img_width * scale),
int(img_height * scale) in Python floats (IEEE-754 binary64, round to
nearest, ties to even).  Nonnegative binary64 values in the normal range
are dyadic rationals mant * 2 ^ exp; the rounding of the two operations
(division of two naturals, multiplication of a natural by a float) is
modelled exactly below. -/

/-- Fuelled floor of the base-2 logarithm. -/
def log2Go : Nat → Nat → Nat
  | _, 0 => 0
  | _, 1 => 0
  | 0, _ => 0
  | fuel + 1, n => log2Go fuel (n / 2) + 1

/-- Floor of the base-2 logarithm of a positive natural. -/
def log2N (n : Nat) : Nat := log2Go n n

/-- Round n + rem / den to the nearest integer, ties to even. -/
def roundMant (n rem den : Nat) : Nat :=
  if 2 * rem < den then n
  else if den < 2 * rem then n + 1
  else if n % 2 = 0 then n else n + 1

/-- A nonnegative binary64 value mant * 2 ^ exp. -/
structure F64 where
  mant : Nat
  exp : Int
deriving DecidableEq

/-- Whether 2 ^ e ≤ a / b, by cross multiplication. -/
def pow2LeRat (e : Int) (a b : Nat) : Bool :=
  if 0 ≤ e then decide (b * 2 ^ e.toNat ≤ a) else decide (b ≤ a * 2 ^ (-e).toNat)

/-- Binary64 division a / b of positive naturals in the normal range: the
    exact quotient is scaled into the significand range and the 53-bit
    significand is rounded to nearest, ties to even. -/
def fdiv64 (a b : Nat) : F64 :=
  let e0 : Int := (log2N a : Int) - (log2N b : Int)
  let e : Int := if pow2LeRat e0 a b then e0 else e0 - 1
  let k : Int := 52 - e
  let nd : Nat × Nat :=
    if 0 ≤ k then (a * 2 ^ k.toNat, b) else (a, b * 2 ^ (-k).toNat)
  ⟨roundMant (nd.1 / nd.2) (nd.1 % nd.2) nd.2, e - 52⟩

/-- Binary64 product of a natural with a binary64 value: exact when the
    integer product of the significands fits in 53 bits, otherwise rounded
    to nearest, ties to even. -/
def fmul64 (w : Nat) (f : F64) : F64 :=
  let p := w * f.mant
  if p = 0 then ⟨0, 0⟩
  else
    let L := log2N p
    if L ≤ 52 then ⟨p * 2 ^ (52 - L), f.exp + L - 52⟩
    else
      let d := 2 ^ (L - 52)
      ⟨roundMant (p / d) (p % d) d, f.exp + (L : Int) - 52⟩

/-- Strict value comparison of two nonnegative binary64 values. -/
def fltF (x y : F64) : Bool :=
  if x.exp ≤ y.exp then decide (x.mant < y.mant * 2 ^ (y.exp - x.exp).toNat)
  else decide (x.mant * 2 ^ (x.exp - y.exp).toNat < y.mant)

/-- Python max of two float values. -/
def fmaxF (x y : F64) : F64 := if fltF x y then y else x

/-- Python int() on a nonnegative float: truncation toward zero = floor. -/
def floorF (f : F64) : Nat :=
  if 0 ≤ f.exp then f.mant * 2 ^ f.exp.toNat else f.mant / 2 ^ (-f.exp).toNat

/-- The pre-crop scaled dimensions computed by create_thumbnail:
    scale = max(target_width / w, target_height / h) in float division,
    then new_width = int(w * scale), new_height = int(h * scale) with
    float multiplication. -/
def create_thumbnail_scaled_dims (w h tw th : Nat) : Nat × Nat :=
  let scale := fmaxF (fdiv64 tw w) (fdiv64 th h)
  (floorF (fmul64 w scale), floorF (fmul64 h scale))

example : create_thumbnail_scaled_dims 4000 3000 200 150 = (200, 150) := by decide
example : create_thumbnail_scaled_dims 100 100 64 64 = (64, 64) := by decide
example : create_thumbnail_scaled_dims 1000 750 400 300 = (400, 300) := by decide
example : create_thumbnail_scaled_dims 103 50 64 64 = (131, 64) := by decide
example : create_thumbnail_scaled_dims 7 3 300 300 = (700, 300) := by decide
example : create_thumbnail_scaled_dims 640 480 200 150 = (200, 150) := by decide
example : create_thumbnail_scaled_dims 333 777 400 300 = (400, 933) := by decide
example : create_thumbnail_scaled_dims 1 1 64 64 = (64, 64) := by decide
example : create_thumbnail_scaled_dims 4032 3024 64 64 = (85, 64) := by decide

/-! ## Helper lemmas -/

lemma rsplitOnce_eq_none {sep : Char} {s : List Char} (h : sep ∉ s) :
    rsplitOnce sep s = none := by
  induction s with
  | nil => rfl
  | cons c rest ih =>
    have hc : c ≠ sep := fun hcs => h (hcs ▸ List.mem_cons_self c rest)
    have hr : sep ∉ rest := fun hm => h (List.mem_cons_of_mem c hm)
    simp [rsplitOnce, ih hr, hc]

lemma rsplitOnce_append {sep : Char} (p : List Char) {f : List Char} (h : sep ∉ f) :
    rsplitOnce sep (p ++ sep :: f) = some (p, f) := by
  induction p with
  | nil => simp [rsplitOnce, rsplitOnce_eq_none h]
  | cons c rest ih => simp [rsplitOnce, ih]

/-! ## Claim theorems -/

/-- C1: the cover-fit pre-crop invariant newW ≥ tw and newH ≥ th FAILS on
    the code: for a 49 × 49 source and the 64 × 64 descriptor, the float
    expression 49 * (64 / 49) evaluates to 63.99999999999999 in binary64
    and int() truncates it, so create_thumbnail computes scaled dimensions
    63 × 63, undershooting the target box in both dimensions. -/
theorem c1_float_truncation_undershoot :
    create_thumbnail_scaled_dims 49 49 64 64 = (63, 63) ∧
    ¬ 64 ≤ (create_thumbnail_scaled_dims 49 49 64 64).1 ∧
    ¬ 64 ≤ (create_thumbnail_scaled_dims 49 49 64 64).2 := by decide

/-- C2: the recursion guard is evaluated first: whenever the key contains
    the reserved marker /thumb- anywhere, process_s3_record returns the
    skipped result with reason Already a thumbnail and performs no store
    call at all — before extension validation and before key-structure
    validation, whatever the extension or structure of the key. -/
theorem c2_recursion_guard_first (st : Store) (key : List Char)
    (h : containsSub THUMBNAIL_MARKER key = true) :
    process_s3_record st key = (.skipped (chars "Already a thumbnail"), []) := by
  simp [process_s3_record, h]

/-- Witness for C2 at a key that is simultaneously a derivative key, of
    unsupported extension and of malformed structure. -/
theorem c2_witness :
    containsSub THUMBNAIL_MARKER (chars "a/thumb-x.gif") = true ∧
    process_s3_record stAllOk (chars "a/thumb-x.gif")
      = (.skipped (chars "Already a thumbnail"), []) :=
  ⟨by decide, c2_recursion_guard_first stAllOk _ (by decide)⟩

/-- C3 counterexample: the claim names owners as the fixed root segment,
    but the code accepts only users: the well-formed key
    owners/42/plant/7/abc-123.jpg (five non-empty segments, supported
    extension, no derivative marker) is skipped as Invalid key structure
    with no fetch and no write, contradicting the claim that such a key
    proceeds to fetch and generation. -/
theorem c3_counterexample :
    process_s3_record stAllOk (chars "owners/42/plant/7/abc-123.jpg")
      = (.skipped (chars "Invalid key structure"), []) := by decide

/-- C3 amended: with root segment users (the addressing scheme of the
    code), a marker-free key of supported extension with at least five
    segments and root users is not skipped as Invalid key structure and
    proceeds to the fetch; with fewer than five segments or another root
    it is skipped as Invalid key structure with no store call. -/
theorem c3_key_structure_users (st : Store) (key : List Char)
    (hm : containsSub THUMBNAIL_MARKER key = false)
    (he : lowerList (splitext key).2 ∈ SUPPORTED_FORMATS) :
    (5 ≤ (key.splitOn '/').length ∧ (key.splitOn '/').head? = some (chars "users") →
      (process_s3_record st key).1 ≠ .skipped (chars "Invalid key structure") ∧
      (process_s3_record st key).2.head? = some (.getReq key)) ∧
    ((key.splitOn '/').length < 5 ∨ (key.splitOn '/').head? ≠ some (chars "users") →
      process_s3_record st key = (.skipped (chars "Invalid key structure"), [])) := by
  constructor
  · rintro ⟨h5, hroot⟩
    have hcond : ¬ ((key.splitOn '/').length < 5 ∨
        (key.splitOn '/').head? ≠ some (chars "users")) := by
      push_neg
      exact ⟨h5, hroot⟩
    simp only [process_s3_record, hm, Bool.false_eq_true, if_false, he,
      not_true_eq_false, hcond]
    cases hget : st.getObj key with
    | err => simp
    | ok size =>
      by_cases hsize : 20 * 1024 * 1024 < size
      · simp only [hsize, if_true]
        exact ⟨by simp; decide, by simp⟩
      · by_cases hdec : st.decodeFails key = true
        · simp [hsize, hdec]
        · simp [hsize, hdec]
  · intro hcond
    have hc : (key.splitOn '/').length < 5 ∨
        (key.splitOn '/').head? ≠ some (chars "users") := hcond
    simp [process_s3_record, hm, he, hc]

/-- Witness for C3 at the key users/1/plant/2/a.jpg, which proceeds to the
    fetch. -/
theorem c3_witness :
    (containsSub THUMBNAIL_MARKER (chars "users/1/plant/2/a.jpg") = false ∧
     lowerList (splitext (chars "users/1/plant/2/a.jpg")).2 ∈ SUPPORTED_FORMATS) ∧
    (process_s3_record stAllOk (chars "users/1/plant/2/a.jpg")).2.head?
      = some (.getReq (chars "users/1/plant/2/a.jpg")) :=
  ⟨⟨by decide, by decide⟩,
   ((c3_key_structure_users stAllOk _ (by decide) (by decide)).1 ⟨by decide, by decide⟩).2⟩

/-- C8: deriveDerivativeKey strips the trailing filename name.ext, keeps
    the directory prefix, and appends variant/name.webp; it is a pure
    function of its two arguments. -/
theorem c8_derive_derivative_key (p name ext v : List Char)
    (hn : '/' ∉ name) (hx : '/' ∉ ext) (hd : '.' ∉ ext)
    (hnd : name.all (· = '.') = false) :
    deriveDerivativeKey (p ++ '/' :: (name ++ '.' :: ext)) v
      = p ++ '/' :: v ++ '/' :: name ++ chars ".webp" := by
  have hsl : '/' ∉ name ++ '.' :: ext := by
    intro hmem
    rcases List.mem_append.1 hmem with h1 | h1
    · exact hn h1
    · rcases List.mem_cons.1 h1 with h2 | h2
      · exact absurd h2 (by decide)
      · exact hx h2
  unfold deriveDerivativeKey
  rw [rsplitOnce_append p hsl]
  show mkThumbKey p v (splitextFile (name ++ '.' :: ext)).1
      = p ++ '/' :: v ++ '/' :: name ++ chars ".webp"
  unfold splitextFile
  rw [rsplitOnce_append name hd]
  simp [hnd, mkThumbKey]

/-- Witness for C8: the spec example owners/42/plant/7/abc-123.jpg with
    variant thumb-64 yields owners/42/plant/7/thumb-64/abc-123.webp . -/
theorem c8_witness :
    ('/' ∉ chars "abc-123" ∧ '/' ∉ chars "jpg" ∧ '.' ∉ chars "jpg" ∧
      (chars "abc-123").all (· = '.') = false) ∧
    deriveDerivativeKey (chars "owners/42/plant/7/abc-123.jpg") (chars "thumb-64")
      = chars "owners/42/plant/7/thumb-64/abc-123.webp" :=
  ⟨⟨by decide, by decide, by decide, by decide⟩, by
    have h := c8_derive_derivative_key (chars "owners/42/plant/7") (chars "abc-123")
      (chars "jpg") (chars "thumb-64") (by decide) (by decide) (by decide) (by decide)
    have hk : chars "owners/42/plant/7/abc-123.jpg"
        = chars "owners/42/plant/7" ++ '/' :: (chars "abc-123" ++ '.' :: chars "jpg") := by
      decide
    rw [hk, h]
    decide⟩

/-- C5 counterexample: under remote delegation a skipped item is counted
    successful, not skipped.  The key users/1/plant/2/thumb-64/a.webp is
    determined by the processing path itself to be skipped (already a
    thumbnail), yet invoke_thumbnail_lambda only sees statusCode 200 and
    returns a dict without a skipped flag, which the batch loop folds into
    the successful counter. -/
theorem c5_counterexample :
    (process_s3_record stAllOk (chars "users/1/plant/2/thumb-64/a.webp")).1
      = .skipped (chars "Already a thumbnail") ∧
    classifyResult
        (invoke_thumbnail_lambda stAllOk false (chars "users/1/plant/2/thumb-64/a.webp"))
      = .succ := by decide

/-- C5 amended: the skipped counter includes every item the LOCAL
    processing path determined was already up to date or invalid, but the
    remote-delegation fallback loses that information: any successfully
    invoked remote call (statusCode 200) is folded into the successful
    counter, even when the remote worker skipped the item. -/
theorem c5_skip_accounting (st : Store) (k : List Char) :
    (∀ reason, (process_s3_record st k).1 = .skipped reason →
      classifyOutcome (localOutcome st k) = .skip) ∧
    classifyResult (invoke_thumbnail_lambda st false k) = .succ := by
  constructor
  · intro reason h
    simp [classifyOutcome, localOutcome, h, process_single_image, classifyResult]
  · rfl

/-- Witness for C5 at a key the local path skips. -/
theorem c5_witness :
    (process_s3_record stAllOk (chars "users/1/plant/2/x.gif")).1
      = .skipped (chars "Unsupported format: .gif") ∧
    classifyOutcome (localOutcome stAllOk (chars "users/1/plant/2/x.gif")) = .skip ∧
    classifyResult (invoke_thumbnail_lambda stAllOk false (chars "users/1/plant/2/x.gif"))
      = .succ :=
  ⟨by decide,
   (c5_skip_accounting stAllOk _).1 (chars "Unsupported format: .gif") (by decide),
   (c5_skip_accounting stAllOk _).2⟩

/-- Folding the best-effort descriptor loop: the accumulated keys are the
    keys of the non-failing descriptors and the writes are exactly their
    uploads. -/
lemma genThumbsFold (fail : List Char → Bool) (f : Nat × Nat × List Char → List Char) :
    ∀ (cfgs : List (Nat × Nat × List Char)) (accK : List (List Char)) (accO : List S3Op),
    cfgs.foldl
        (fun acc cfg =>
          if fail cfg.2.2 then acc
          else (acc.1 ++ [f cfg], acc.2 ++ [S3Op.putReq (f cfg)]))
        (accK, accO)
      = (accK ++ (cfgs.filter (fun cfg => ! fail cfg.2.2)).map f,
         accO ++ (cfgs.filter (fun cfg => ! fail cfg.2.2)).map
           (fun cfg => S3Op.putReq (f cfg))) := by
  intro cfgs
  induction cfgs with
  | nil => intro accK accO; simp
  | cons c rest ih =>
    intro accK accO
    by_cases hc : fail c.2.2 = true
    · simp [List.foldl_cons, hc, ih]
    · simp only [List.foldl_cons, hc, if_false, Bool.false_eq_true]
      rw [ih]
      simp [hc]

/-- C7: per-descriptor failure isolation in generate_thumbnails: the
    failing descriptors are excluded, every other descriptor of the four
    is still rendered and uploaded, and the returned list is exactly the
    list of derivative keys actually written to the store (in
    configuration order). -/
theorem c7_failure_isolation (st : Store) (key basePath filename : List Char)
    (hsplit : rsplitOnce '/' key = some (basePath, filename)) :
    (generate_thumbnails st key).1
      = (THUMBNAIL_CONFIGS.filter (fun cfg => ! st.failDescr cfg.2.2)).map
          (fun cfg => mkThumbKey basePath cfg.2.2 (splitextFile filename).1) ∧
    (generate_thumbnails st key).2
      = (THUMBNAIL_CONFIGS.filter (fun cfg => ! st.failDescr cfg.2.2)).map
          (fun cfg => S3Op.putReq (mkThumbKey basePath cfg.2.2 (splitextFile filename).1)) := by
  have hg : generate_thumbnails st key
      = ([] ++ (THUMBNAIL_CONFIGS.filter (fun cfg => ! st.failDescr cfg.2.2)).map
            (fun cfg => mkThumbKey basePath cfg.2.2 (splitextFile filename).1),
         [] ++ (THUMBNAIL_CONFIGS.filter (fun cfg => ! st.failDescr cfg.2.2)).map
            (fun cfg => S3Op.putReq (mkThumbKey basePath cfg.2.2 (splitextFile filename).1))) := by
    unfold generate_thumbnails
    rw [hsplit]
    exact genThumbsFold st.failDescr
      (fun cfg => mkThumbKey basePath cfg.2.2 (splitextFile filename).1) THUMBNAIL_CONFIGS [] []
  rw [hg]
  simp

/-- Witness for C7: with thumb-200 failing, the other three descriptors
    are still written and returned. -/
theorem c7_witness :
    rsplitOnce '/' (chars "users/1/plant/2/a.jpg")
      = some (chars "users/1/plant/2", chars "a.jpg") ∧
    (generate_thumbnails stFail200 (chars "users/1/plant/2/a.jpg")).1
      = [chars "users/1/plant/2/thumb-64/a.webp",
         chars "users/1/plant/2/thumb-300/a.webp",
         chars "users/1/plant/2/thumb-400/a.webp"] :=
  ⟨by decide, by
    have h := (c7_failure_isolation stFail200 _ _ _
      (show rsplitOnce '/' (chars "users/1/plant/2/a.jpg")
          = some (chars "users/1/plant/2", chars "a.jpg") by decide)).1
    rw [h]
    decide⟩

/-- With positive batch size, the batch slices concatenate back to the
    item list. -/
lemma chunksGo_flatten {α : Type _} (bs : Nat) (hbs : 1 ≤ bs) :
    ∀ (fuel : Nat) (l : List α), l.length ≤ fuel → (chunksGo bs fuel l).flatten = l := by
  intro fuel
  induction fuel with
  | zero =>
    intro l hl
    have hnil : l = [] := List.length_eq_zero.1 (Nat.le_zero.1 hl)
    subst hnil
    rfl
  | succ n ih =>
    intro l hl
    cases l with
    | nil => rfl
    | cons a t =>
      show (List.take bs (a :: t) :: chunksGo bs n (List.drop bs (a :: t))).flatten = a :: t
      rw [List.flatten_cons, ih _ (by simp only [List.length_drop, List.length_cons] at hl ⊢; omega),
        List.take_append_drop]

/-- Reordering each batch independently permutes the concatenation. -/
lemma flatten_map_perm {α : Type _} (co : List α → List α) (h : ∀ c, List.Perm (co c) c) :
    ∀ cs : List (List α), List.Perm ((cs.map co).flatten) cs.flatten := by
  intro cs
  induction cs with
  | nil => exact List.Perm.refl _
  | cons c rest ih =>
    simp only [List.map_cons, List.flatten_cons]
    exact (h c).append ih

/-- Every counter value is exactly one of succ, skip, fail, so the three
    counts partition the list. -/
lemma counter_partition : ∀ l : List Counter,
    l.countP (fun x => decide (x = Counter.succ))
      + l.countP (fun x => decide (x = Counter.skip))
      + l.countP (fun x => decide (x = Counter.fail)) = l.length := by
  intro l
  induction l with
  | nil => rfl
  | cons c rest ih =>
    cases c <;> simp [List.countP_cons, ← ih] <;> omega

/-- C4: statistics conservation: for every item list and batch size at
    least 1, whatever order the workers of each batch complete in, the
    returned statistics have total equal to the number of items, the three
    outcome counters sum to the total, and each counter equals the exact
    count of the per-item outcomes. -/
theorem c4_statistics_conservation {α : Type _} (outcome : α → ItemOutcome)
    (completionOrder : List α → List α) (items : List α) (bs : Nat)
    (hbs : 1 ≤ bs) (hco : ∀ c, List.Perm (completionOrder c) c) :
    (process_images_in_batches outcome completionOrder items bs).total = items.length ∧
    (process_images_in_batches outcome completionOrder items bs).successful
      + (process_images_in_batches outcome completionOrder items bs).skipped
      + (process_images_in_batches outcome completionOrder items bs).failed
      = (process_images_in_batches outcome completionOrder items bs).total ∧
    (process_images_in_batches outcome completionOrder items bs).successful
      = items.countP (fun a => decide (classifyOutcome (outcome a) = Counter.succ)) ∧
    (process_images_in_batches outcome completionOrder items bs).skipped
      = items.countP (fun a => decide (classifyOutcome (outcome a) = Counter.skip)) ∧
    (process_images_in_batches outcome completionOrder items bs).failed
      = items.countP (fun a => decide (classifyOutcome (outcome a) = Counter.fail)) := by
  have hperm : List.Perm (((chunks bs items).map completionOrder).flatten) items := by
    have h1 := flatten_map_perm completionOrder hco (chunks bs items)
    have h2 : (chunks bs items).flatten = items :=
      chunksGo_flatten bs hbs items.length items le_rfl
    rw [h2] at h1
    exact h1
  simp only [process_images_in_batches]
  refine ⟨trivial, ?_, ?_, ?_, ?_⟩
  · rw [counter_partition, List.length_map]
    exact hperm.length_eq
  · rw [List.countP_map]
    exact hperm.countP_eq _
  · rw [List.countP_map]
    exact hperm.countP_eq _
  · rw [List.countP_map]
    exact hperm.countP_eq _

/-- Witness for C4: the spec scenario of 25 items in batches of 10 with
    exactly one raising item, folded in reversed completion order, yields
    total 25, successful 24, skipped 0, failed 1. -/
theorem c4_witness :
    (1 ≤ 10 ∧ ∀ c : List Nat, List.Perm c.reverse c) ∧
    ((process_images_in_batches out25 List.reverse (List.range 25) 10).successful
        + (process_images_in_batches out25 List.reverse (List.range 25) 10).skipped
        + (process_images_in_batches out25 List.reverse (List.range 25) 10).failed
        = (process_images_in_batches out25 List.reverse (List.range 25) 10).total) ∧
    process_images_in_batches out25 List.reverse (List.range 25) 10
      = { total := 25, successful := 24, skipped := 0, failed := 1 } :=
  ⟨⟨by decide, fun c => c.reverse_perm⟩,
   (c4_statistics_conservation out25 List.reverse (List.range 25) 10 (by decide)
      (fun c => c.reverse_perm)).2.1,
   by decide⟩

/-- Unfolding scanPage on the empty page. -/
lemma scanPage_nil (st : Store) (maxI : Option Nat) (acc : List (List Char)) :
    scanPage st maxI [] acc = (acc, [], false) := rfl

/-- Unfolding scanPage when the head key carries the derivative marker. -/
lemma scanPage_cons_marker (st : Store) (maxI : Option Nat) (k : List Char)
    (t acc : List (List Char)) (hme : containsSub THUMBNAIL_MARKER k = true) :
    scanPage st maxI (k :: t) acc = scanPage st maxI t acc := by
  simp [scanPage, hme]

/-- Unfolding scanPage when the head key has an unsupported extension. -/
lemma scanPage_cons_ext (st : Store) (maxI : Option Nat) (k : List Char)
    (t acc : List (List Char)) (hme : containsSub THUMBNAIL_MARKER k = false)
    (hx : lowerList (splitext k).2 ∉ SUPPORTED_FORMATS) :
    scanPage st maxI (k :: t) acc = scanPage st maxI t acc := by
  simp [scanPage, hme, hx]

/-- Unfolding scanPage when the head key already has its thumbnail. -/
lemma scanPage_cons_has (st : Store) (maxI : Option Nat) (k : List Char)
    (t acc : List (List Char)) (hme : containsSub THUMBNAIL_MARKER k = false)
    (hx : lowerList (splitext k).2 ∈ SUPPORTED_FORMATS)
    (hh : (has_thumbnails st k).1 = true) :
    scanPage st maxI (k :: t) acc
      = ((scanPage st maxI t acc).1,
         (has_thumbnails st k).2 ++ (scanPage st maxI t acc).2.1,
         (scanPage st maxI t acc).2.2) := by
  simp [scanPage, hme, hx, hh]

/-- Unfolding scanPage when the head key is a candidate and appending it
    reaches the cap. -/
lemma scanPage_cons_stop (st : Store) (maxI : Option Nat) (k : List Char)
    (t acc : List (List Char)) (hme : containsSub THUMBNAIL_MARKER k = false)
    (hx : lowerList (splitext k).2 ∈ SUPPORTED_FORMATS)
    (hh : (has_thumbnails st k).1 = false)
    (hcap : capReached maxI (acc.length + 1) = true) :
    scanPage st maxI (k :: t) acc = (acc ++ [k], (has_thumbnails st k).2, true) := by
  simp [scanPage, hme, hx, hh, hcap]

/-- Unfolding scanPage when the head key is a candidate and the cap is not
    yet reached. -/
lemma scanPage_cons_cont (st : Store) (maxI : Option Nat) (k : List Char)
    (t acc : List (List Char)) (hme : containsSub THUMBNAIL_MARKER k = false)
    (hx : lowerList (splitext k).2 ∈ SUPPORTED_FORMATS)
    (hh : (has_thumbnails st k).1 = false)
    (hcap : capReached maxI (acc.length + 1) = false) :
    scanPage st maxI (k :: t) acc
      = ((scanPage st maxI t (acc ++ [k])).1,
         (has_thumbnails st k).2 ++ (scanPage st maxI t (acc ++ [k])).2.1,
         (scanPage st maxI t (acc ++ [k])).2.2) := by
  simp [scanPage, hme, hx, hh, hcap]

/-- Unfolding scanGo on no pages. -/
lemma scanGo_nil (st : Store) (maxI : Option Nat) (acc : List (List Char)) :
    scanGo st maxI [] acc = (acc, []) := rfl

/-- Unfolding scanGo when the first page reports the cap reached. -/
lemma scanGo_cons_stop (st : Store) (maxI : Option Nat) (pg : List (List Char))
    (rest : List (List (List Char))) (acc : List (List Char))
    (hstop : (scanPage st maxI pg acc).2.2 = true) :
    scanGo st maxI (pg :: rest) acc
      = ((scanPage st maxI pg acc).1, S3Op.listReq :: (scanPage st maxI pg acc).2.1) := by
  simp [scanGo, hstop]

/-- Unfolding scanGo when the first page does not reach the cap. -/
lemma scanGo_cons_cont (st : Store) (maxI : Option Nat) (pg : List (List Char))
    (rest : List (List (List Char))) (acc : List (List Char))
    (hstop : (scanPage st maxI pg acc).2.2 = false) :
    scanGo st maxI (pg :: rest) acc
      = ((scanGo st maxI rest (scanPage st maxI pg acc).1).1,
         S3Op.listReq :: ((scanPage st maxI pg acc).2.1
           ++ (scanGo st maxI rest (scanPage st maxI pg acc).1).2)) := by
  simp [scanGo, hstop]

/-- Without a cap, one page contributes exactly its eligible keys and the
    early return never fires. -/
lemma scanPage_none (st : Store) :
    ∀ (ks acc : List (List Char)),
    (scanPage st none ks acc).1 = acc ++ ks.filter (eligible st) ∧
    (scanPage st none ks acc).2.2 = false := by
  intro ks
  induction ks with
  | nil => intro acc; simp [scanPage_nil]
  | cons k t ih =>
    intro acc
    by_cases hme : containsSub THUMBNAIL_MARKER k = true
    · have he : eligible st k = false := by simp [eligible, hme]
      rw [scanPage_cons_marker st none k t acc hme]
      simpa [List.filter_cons, he] using ih acc
    · have hmf : containsSub THUMBNAIL_MARKER k = false := by simpa using hme
      by_cases hx : lowerList (splitext k).2 ∈ SUPPORTED_FORMATS
      · by_cases hh : (has_thumbnails st k).1 = true
        · have he : eligible st k = false := by simp [eligible, hh]
          rw [scanPage_cons_has st none k t acc hmf hx hh]
          simpa [List.filter_cons, he] using ih acc
        · have hhf : (has_thumbnails st k).1 = false := by simpa using hh
          have he : eligible st k = true := by simp [eligible, hmf, hx, hhf]
          rw [scanPage_cons_cont st none k t acc hmf hx hhf rfl]
          refine ⟨?_, (ih (acc ++ [k])).2⟩
          rw [show ((scanPage st none t (acc ++ [k])).1,
              (has_thumbnails st k).2 ++ (scanPage st none t (acc ++ [k])).2.1,
              (scanPage st none t (acc ++ [k])).2.2).1
            = (scanPage st none t (acc ++ [k])).1 from rfl]
          rw [(ih (acc ++ [k])).1]
          simp [List.filter_cons, he]
      · have he : eligible st k = false := by simp [eligible, hx]
        rw [scanPage_cons_ext st none k t acc hmf hx]
        simpa [List.filter_cons, he] using ih acc

/-- Without a cap, the scan returns every eligible key of every page. -/
lemma scanGo_none (st : Store) :
    ∀ (pages : List (List (List Char))) (acc : List (List Char)),
    (scanGo st none pages acc).1 = acc ++ (pages.flatten).filter (eligible st) := by
  intro pages
  induction pages with
  | nil => intro acc; simp [scanGo_nil]
  | cons pg rest ih =>
    intro acc
    have h := scanPage_none st pg acc
    rw [scanGo_cons_cont st none pg rest acc h.2]
    rw [show ((scanGo st none rest (scanPage st none pg acc).1).1,
        S3Op.listReq :: ((scanPage st none pg acc).2.1
          ++ (scanGo st none rest (scanPage st none pg acc).1).2)).1
      = (scanGo st none rest (scanPage st none pg acc).1).1 from rfl]
    rw [ih, h.1]
    simp [List.filter_append]

/-- With a cap of m ≥ 1 and fewer than m keys accumulated, one page yields
    the first m of the accumulated plus eligible keys, and the early
    return fires exactly when that total reaches m. -/
lemma scanPage_some (st : Store) (m : Nat) (hm : 1 ≤ m) :
    ∀ (ks acc : List (List Char)), acc.length < m →
    (scanPage st (some m) ks acc).1 = (acc ++ ks.filter (eligible st)).take m ∧
    ((scanPage st (some m) ks acc).2.2 = true ↔
      m ≤ (acc ++ ks.filter (eligible st)).length) := by
  intro ks
  induction ks with
  | nil =>
    intro acc hacc
    rw [scanPage_nil]
    refine ⟨by simp [List.take_of_length_le (Nat.le_of_lt hacc)], ?_⟩
    simp
    omega
  | cons k t ih =>
    intro acc hacc
    by_cases hme : containsSub THUMBNAIL_MARKER k = true
    · have he : eligible st k = false := by simp [eligible, hme]
      rw [scanPage_cons_marker st (some m) k t acc hme]
      simpa [List.filter_cons, he] using ih acc hacc
    · have hmf : containsSub THUMBNAIL_MARKER k = false := by simpa using hme
      by_cases hx : lowerList (splitext k).2 ∈ SUPPORTED_FORMATS
      · by_cases hh : (has_thumbnails st k).1 = true
        · have he : eligible st k = false := by simp [eligible, hh]
          rw [scanPage_cons_has st (some m) k t acc hmf hx hh]
          simpa [List.filter_cons, he] using ih acc hacc
        · have hhf : (has_thumbnails st k).1 = false := by simpa using hh
          have he : eligible st k = true := by simp [eligible, hmf, hx, hhf]
          have hfc : (k :: t).filter (eligible st) = k :: t.filter (eligible st) := by
            simp [List.filter_cons, he]
          have hsplit2 : acc ++ k :: t.filter (eligible st)
              = (acc ++ [k]) ++ t.filter (eligible st) := by simp
          by_cases hfull : m ≤ acc.length + 1
          · have hcap : capReached (some m) (acc.length + 1) = true := by
              simp [capReached]
              omega
            rw [scanPage_cons_stop st (some m) k t acc hmf hx hhf hcap]
            have htake : (acc ++ k :: t.filter (eligible st)).take m = acc ++ [k] := by
              rw [hsplit2, List.take_append_eq_append_take,
                List.take_of_length_le (by simp; omega),
                show m - (acc ++ [k]).length = 0 by simp; omega]
              simp
            refine ⟨by rw [hfc, htake], ?_⟩
            rw [hfc]
            simp only [List.length_append, List.length_cons]
            constructor
            · intro _; omega
            · intro _; trivial
          · have hcap : capReached (some m) (acc.length + 1) = false := by
              simp [capReached]
              omega
            have hacc' : (acc ++ [k]).length < m := by simp; omega
            have hrec := ih (acc ++ [k]) hacc'
            rw [scanPage_cons_cont st (some m) k t acc hmf hx hhf hcap]
            refine ⟨?_, ?_⟩
            · rw [show ((scanPage st (some m) t (acc ++ [k])).1,
                  (has_thumbnails st k).2 ++ (scanPage st (some m) t (acc ++ [k])).2.1,
                  (scanPage st (some m) t (acc ++ [k])).2.2).1
                = (scanPage st (some m) t (acc ++ [k])).1 from rfl]
              rw [hrec.1, hfc, hsplit2]
            · rw [show ((scanPage st (some m) t (acc ++ [k])).1,
                  (has_thumbnails st k).2 ++ (scanPage st (some m) t (acc ++ [k])).2.1,
                  (scanPage st (some m) t (acc ++ [k])).2.2).2.2
                = (scanPage st (some m) t (acc ++ [k])).2.2 from rfl]
              rw [hrec.2, hfc, hsplit2]
      · have he : eligible st k = false := by simp [eligible, hx]
        rw [scanPage_cons_ext st (some m) k t acc hmf hx]
        simpa [List.filter_cons, he] using ih acc hacc

/-- With a cap of m ≥ 1 the whole scan returns the first m candidates. -/
lemma scanGo_some (st : Store) (m : Nat) (hm : 1 ≤ m) :
    ∀ (pages : List (List (List Char))) (acc : List (List Char)), acc.length < m →
    (scanGo st (some m) pages acc).1
      = (acc ++ (pages.flatten).filter (eligible st)).take m := by
  intro pages
  induction pages with
  | nil =>
    intro acc hacc
    rw [scanGo_nil]
    simp [List.take_of_length_le (Nat.le_of_lt hacc)]
  | cons pg rest ih =>
    intro acc hacc
    have hp := scanPage_some st m hm pg acc hacc
    by_cases hstop : (scanPage st (some m) pg acc).2.2 = true
    · have hlen : m ≤ (acc ++ pg.filter (eligible st)).length := hp.2.1 hstop
      have htake : ((acc ++ pg.filter (eligible st))
            ++ (rest.flatten).filter (eligible st)).take m
          = (acc ++ pg.filter (eligible st)).take m := by
        rw [List.take_append_eq_append_take,
          show m - (acc ++ pg.filter (eligible st)).length = 0 by omega]
        simp
      rw [scanGo_cons_stop st (some m) pg rest acc hstop]
      rw [show ((scanPage st (some m) pg acc).1,
          S3Op.listReq :: (scanPage st (some m) pg acc).2.1).1
        = (scanPage st (some m) pg acc).1 from rfl]
      rw [hp.1, List.flatten_cons, List.filter_append, ← List.append_assoc, htake]
    · have hsf : (scanPage st (some m) pg acc).2.2 = false := by simpa using hstop
      have hlen : ¬ m ≤ (acc ++ pg.filter (eligible st)).length := fun hc =>
        hstop (hp.2.2 hc)
      have hfirst : (scanPage st (some m) pg acc).1 = acc ++ pg.filter (eligible st) := by
        rw [hp.1]
        exact List.take_of_length_le (by omega)
      rw [scanGo_cons_cont st (some m) pg rest acc hsf]
      rw [show ((scanGo st (some m) rest (scanPage st (some m) pg acc).1).1,
          S3Op.listReq :: ((scanPage st (some m) pg acc).2.1
            ++ (scanGo st (some m) rest (scanPage st (some m) pg acc).1).2)).1
        = (scanGo st (some m) rest (scanPage st (some m) pg acc).1).1 from rfl]
      rw [ih ((scanPage st (some m) pg acc).1) (by rw [hfirst]; omega)]
      rw [hfirst, List.flatten_cons, List.filter_append, List.append_assoc]

/-- C6 counterexample: with maxImages = 0 supplied, the Python truthiness
    test disables the cap, so a store holding one candidate yields one
    result — more than maxImages. -/
theorem c6_counterexample :
    ¬ ((find_images_needing_thumbnails scanStore (some 0)).1.length ≤ 0) := by decide

/-- C6 amended: for every supplied maxImages ≥ 1 the scan returns exactly
    the first maxImages candidates (hence at most maxImages, halting as
    soon as the cap is reached), and with no cap it returns all
    candidates: the eligible keys of all listed pages. -/
theorem c6_max_images_cap (st : Store) (m : Nat) (hm : 1 ≤ m) :
    (find_images_needing_thumbnails st (some m)).1
      = ((find_images_needing_thumbnails st none).1).take m ∧
    (find_images_needing_thumbnails st (some m)).1.length ≤ m ∧
    (find_images_needing_thumbnails st none).1
      = (st.pages.flatten).filter (eligible st) := by
  have h0 : (find_images_needing_thumbnails st none).1
      = (st.pages.flatten).filter (eligible st) := by
    unfold find_images_needing_thumbnails
    simpa using scanGo_none st st.pages []
  have h1 : (find_images_needing_thumbnails st (some m)).1
      = ((st.pages.flatten).filter (eligible st)).take m := by
    unfold find_images_needing_thumbnails
    simpa using scanGo_some st m hm st.pages [] (by simpa using hm)
  refine ⟨by rw [h1, h0], ?_, h0⟩
  rw [h1]
  exact List.length_take_le m _

/-- Witness for C6 with a one-candidate store and cap 1. -/
theorem c6_witness :
    1 ≤ 1 ∧
    (find_images_needing_thumbnails scanStore (some 1)).1
      = ((find_images_needing_thumbnails scanStore none).1).take 1 ∧
    (find_images_needing_thumbnails scanStore (some 1)).1.length ≤ 1 :=
  ⟨le_refl 1, (c6_max_images_cap scanStore 1 (le_refl 1)).1,
   (c6_max_images_cap scanStore 1 (le_refl 1)).2.1⟩

/-- The thumbnail existence probe issues head requests only. -/
lemma has_thumbnails_ops_no_put (st : Store) (k : List Char) :
    ∀ op ∈ (has_thumbnails st k).2, ∀ q, op ≠ S3Op.putReq q := by
  unfold has_thumbnails
  cases hsplit : rsplitOnce '/' k with
  | none => simp
  | some bf =>
    cases hh : st.headOut (mkThumbKey bf.1 (chars "thumb-64") (splitextFile bf.2).1) <;>
      simp [hh]

/-- The page loop of the scan issues no write. -/
lemma scanPage_ops_no_put (st : Store) (maxI : Option Nat) :
    ∀ (ks acc : List (List Char)),
    ∀ op ∈ (scanPage st maxI ks acc).2.1, ∀ q, op ≠ S3Op.putReq q := by
  intro ks
  induction ks with
  | nil => intro acc op hop; rw [scanPage_nil] at hop; simp at hop
  | cons k t ih =>
    intro acc op hop q
    by_cases hme : containsSub THUMBNAIL_MARKER k = true
    · rw [scanPage_cons_marker st maxI k t acc hme] at hop
      exact ih acc op hop q
    · have hmf : containsSub THUMBNAIL_MARKER k = false := by simpa using hme
      by_cases hx : lowerList (splitext k).2 ∈ SUPPORTED_FORMATS
      · by_cases hh : (has_thumbnails st k).1 = true
        · rw [scanPage_cons_has st maxI k t acc hmf hx hh] at hop
          rcases List.mem_append.1 hop with h1 | h1
          · exact has_thumbnails_ops_no_put st k op h1 q
          · exact ih acc op h1 q
        · have hhf : (has_thumbnails st k).1 = false := by simpa using hh
          by_cases hcap : capReached maxI (acc.length + 1) = true
          · rw [scanPage_cons_stop st maxI k t acc hmf hx hhf hcap] at hop
            exact has_thumbnails_ops_no_put st k op hop q
          · have hcf : capReached maxI (acc.length + 1) = false := by simpa using hcap
            rw [scanPage_cons_cont st maxI k t acc hmf hx hhf hcf] at hop
            rcases List.mem_append.1 hop with h1 | h1
            · exact has_thumbnails_ops_no_put st k op h1 q
            · exact ih (acc ++ [k]) op h1 q
      · have hxn : lowerList (splitext k).2 ∉ SUPPORTED_FORMATS := hx
        rw [scanPage_cons_ext st maxI k t acc hmf hxn] at hop
        exact ih acc op hop q

/-- The whole scan issues list and head requests only, never a write. -/
lemma scanGo_ops_no_put (st : Store) (maxI : Option Nat) :
    ∀ (pages : List (List (List Char))) (acc : List (List Char)),
    ∀ op ∈ (scanGo st maxI pages acc).2, ∀ q, op ≠ S3Op.putReq q := by
  intro pages
  induction pages with
  | nil => intro acc op hop; rw [scanGo_nil] at hop; simp at hop
  | cons pg rest ih =>
    intro acc op hop q
    by_cases hstop : (scanPage st maxI pg acc).2.2 = true
    · rw [scanGo_cons_stop st maxI pg rest acc hstop] at hop
      rcases List.mem_cons.1 hop with h1 | h1
      · subst h1; simp
      · exact scanPage_ops_no_put st maxI pg acc op h1 q
    · have hsf : (scanPage st maxI pg acc).2.2 = false := by simpa using hstop
      rw [scanGo_cons_cont st maxI pg rest acc hsf] at hop
      rcases List.mem_cons.1 hop with h1 | h1
      · subst h1; simp
      · rcases List.mem_append.1 h1 with h2 | h2
        · exact scanPage_ops_no_put st maxI pg acc op h2 q
        · exact ih ((scanPage st maxI pg acc).1) op h2 q

/-- C9: dry-run frame property: with dryRun true the backfill performs no
    rendering and no write (its whole trace is the scan trace, which holds
    no put), and returns totalImages equal to the number of candidates
    together with the first 20 candidate keys in scan order as the
    sample. -/
theorem c9_dry_run_frame (st : Store) (bs : Nat) (maxImages : Option Nat)
    (completionOrder : List (List Char) → List (List Char)) :
    backfill_thumbnails st true bs maxImages completionOrder
      = (.dry (find_images_needing_thumbnails st maxImages).1.length
              ((find_images_needing_thumbnails st maxImages).1.take 20),
         (find_images_needing_thumbnails st maxImages).2) ∧
    ∀ op ∈ (backfill_thumbnails st true bs maxImages completionOrder).2,
      ∀ q, op ≠ S3Op.putReq q := by
  refine ⟨rfl, ?_⟩
  intro op hop q
  exact scanGo_ops_no_put st maxImages st.pages [] op hop q

/-- Witness for C9: a concrete dry run returning the one candidate with a
    put-free trace. -/
theorem c9_witness :
    S3Op.listReq ∈ (backfill_thumbnails scanStore true 10 none id).2 ∧
    S3Op.listReq ≠ S3Op.putReq (chars "x") ∧
    backfill_thumbnails scanStore true 10 none id
      = (.dry 1 [chars "users/1/plant/2/a.jpg"],
         [S3Op.listReq,
          S3Op.headReq (chars "users/1/plant/2/thumb-64/a.webp")]) :=
  ⟨by decide,
   (c9_dry_run_frame scanStore 10 none id).2 S3Op.listReq (by decide) (chars "x"),
   by decide⟩

/-- C10: when the head probe for the canonical thumb-64 derivative fails
    with any ClientError other than 404, has_thumbnails returns false, so
    a listed original with supported extension and no marker is classified
    as needing backfill; the probe error never escapes the scan, which
    still returns its full candidate list. -/
theorem c10_probe_error_means_backfill (st : Store) (k basePath filename : List Char)
    (hsplit : rsplitOnce '/' k = some (basePath, filename))
    (herr : st.headOut (mkThumbKey basePath (chars "thumb-64") (splitextFile filename).1)
      = .otherError) :
    (has_thumbnails st k).1 = false ∧
    (k ∈ st.pages.flatten → containsSub THUMBNAIL_MARKER k = false →
      lowerList (splitext k).2 ∈ SUPPORTED_FORMATS →
      k ∈ (find_images_needing_thumbnails st none).1) := by
  have h1 : (has_thumbnails st k).1 = false := by
    simp [has_thumbnails, hsplit, herr]
  refine ⟨h1, fun hmem hm hx => ?_⟩
  have h0 : (find_images_needing_thumbnails st none).1
      = (st.pages.flatten).filter (eligible st) := by
    unfold find_images_needing_thumbnails
    simpa using scanGo_none st st.pages []
  rw [h0]
  refine List.mem_filter.2 ⟨hmem, ?_⟩
  simp [eligible, hm, hx, h1]

/-- Witness for C10: a store whose probes all fail with access errors
    still schedules its one original for backfill. -/
theorem c10_witness :
    rsplitOnce '/' (chars "users/1/plant/2/a.jpg")
      = some (chars "users/1/plant/2", chars "a.jpg") ∧
    (has_thumbnails errStore (chars "users/1/plant/2/a.jpg")).1 = false ∧
    chars "users/1/plant/2/a.jpg" ∈ (find_images_needing_thumbnails errStore none).1 :=
  ⟨by decide,
   (c10_probe_error_means_backfill errStore _ (chars "users/1/plant/2") (chars "a.jpg")
      (by decide) rfl).1,
   (c10_probe_error_means_backfill errStore _ (chars "users/1/plant/2") (chars "a.jpg")
      (by decide) rfl).2 (by decide) (by decide) (by decide)⟩

end Thumb
